import Mathlib

/-!
Verification of the per-frame update logic of the vibe-car-game repository.

The repository contains three small browser games:
* `nextjs-car-game/app/components/CarGame.tsx` - a hover-tank driving game
  whose `updateCar(delta)` integrates speed, steering and position;
* `simple-js/game.js` - a plain driving game with `updateCar()`;
* `witcher-game/src/components/game/*.tsx` - a melee action game with an
  enemy aggro state machine (`Enemy` / `useFrame`), player movement
  (`Player` / `useFrame`) and combat handlers in `Game.tsx`.

Modelling conventions: JavaScript numbers (IEEE-754 doubles) are modelled as
exact real numbers.  `Math.pow` is `Real.rpow`, `Math.sqrt` (inside
THREE.Vector3.length) is `Real.sqrt`, `Math.sin`/`Math.cos`/`Math.atan2`
are the corresponding real functions, `Math.sign` is `Real.sign`,
`Math.ceil` is `Int.ceil`, and `Math.max`/`Math.min` are `max`/`min`.
THREE.Vector3 is a record of three reals; `v.normalize()` divides by the
length when it is nonzero and leaves the (zero) vector unchanged otherwise
(THREE uses `divideScalar(length || 1)`).
-/

/-- A THREE.Vector3: a triple of real coordinates. -/
@[ext]
structure Vec3 where
  x : ℝ
  y : ℝ
  z : ℝ

instance : Add Vec3 := ⟨fun a b => ⟨a.x + b.x, a.y + b.y, a.z + b.z⟩⟩

instance : Sub Vec3 := ⟨fun a b => ⟨a.x - b.x, a.y - b.y, a.z - b.z⟩⟩

instance : Zero Vec3 := ⟨⟨0, 0, 0⟩⟩

instance : SMul ℝ Vec3 := ⟨fun r v => ⟨r * v.x, r * v.y, r * v.z⟩⟩

/-- THREE.Vector3.dot. -/
def dot3 (a b : Vec3) : ℝ := a.x * b.x + a.y * b.y + a.z * b.z

/-- THREE.Vector3.length: `sqrt (x^2 + y^2 + z^2)`. -/
noncomputable def norm3 (v : Vec3) : ℝ := Real.sqrt (v.x ^ 2 + v.y ^ 2 + v.z ^ 2)

/-- THREE.Vector3.normalize: `divideScalar (length || 1)`; dividing the zero
vector by 1 leaves it unchanged. -/
noncomputable def normalize3 (v : Vec3) : Vec3 :=
  if norm3 v = 0 then v else (norm3 v)⁻¹ • v

/-- THREE.Vector3.distanceTo. -/
noncomputable def dist3 (a b : Vec3) : ℝ := norm3 (a - b)

/-- JavaScript Math.atan2 (y, x). -/
noncomputable def mathAtan2 (y x : ℝ) : ℝ :=
  if 0 < x then Real.arctan (y / x)
  else if x < 0 then
    (if 0 ≤ y then Real.arctan (y / x) + Real.pi else Real.arctan (y / x) - Real.pi)
  else
    (if 0 < y then Real.pi / 2 else if y < 0 then -(Real.pi / 2) else 0)

/-- JavaScript remainder operator `a % b` (truncated toward zero). -/
noncomputable def jsRem (a b : ℝ) : ℝ :=
  a - b * ((if 0 ≤ a / b then (⌊a / b⌋ : ℤ) else (⌈a / b⌉ : ℤ)) : ℝ)

/-! ## Hover-tank driving game (nextjs-car-game/app/components/CarGame.tsx) -/

/-- The mutable `carDataRef` record of CarGame.tsx (the shooting fields
`canShoot`/`reloadTime`/`lastShotTime` play no role in `updateCar` and are
omitted; `velocity` is never read). -/
structure CarData where
  speed : ℝ
  maxSpeed : ℝ
  acceleration : ℝ
  deceleration : ℝ
  turnSpeed : ℝ
  friction : ℝ
  brakeStrength : ℝ
  steeringAngle : ℝ
  maxSteeringAngle : ℝ
  steeringSpeed : ℝ
  steeringReturn : ℝ
  direction : Vec3

/-- The THREE.Group transform of the car (`carRef.current`): its position and
its rotation about the y axis (the only rotation component `updateCar`
touches). -/
structure CarPose where
  position : Vec3
  rotationY : ℝ

/-- The `controlsRef` record of CarGame.tsx. -/
structure Controls where
  forward : Bool
  backward : Bool
  left : Bool
  right : Bool
  shoot : Bool

/-- The initial `carDataRef.current` values of CarGame.tsx. -/
noncomputable def initialCarData : CarData :=
  { speed := 0
    maxSpeed := 0.4
    acceleration := 0.008
    deceleration := 0.005
    turnSpeed := 0.03
    friction := 0.99
    brakeStrength := 0.12
    steeringAngle := 0
    maxSteeringAngle := 0.05
    steeringSpeed := 0.003
    steeringReturn := 0.02
    direction := ⟨0, 0, 1⟩ }

/-- `updateCar(delta)` of CarGame.tsx, lines 582-653.  `nowMs` is the value of
`Date.now()` used by the cosmetic hover bob.  Returns the updated car data and
the updated car transform. -/
noncomputable def updateCar (c : CarData) (pose : CarPose) (ctrl : Controls)
    (delta nowMs : ℝ) : CarData × CarPose :=
  let scaledAcceleration := c.acceleration * delta * 60
  let scaledBrakeStrength := c.brakeStrength * delta * 60
  let scaledSteeringSpeed := c.steeringSpeed * delta * 60
  let scaledSteeringReturn := c.steeringReturn * delta * 60
  -- apply acceleration
  let speed1 := if ctrl.forward then c.speed + scaledAcceleration else c.speed
  -- apply braking
  let speed2 :=
    if ctrl.backward then
      (if speed1 > 0 then speed1 - scaledBrakeStrength
       else speed1 - scaledAcceleration * 0.5)
    else speed1
  -- apply friction
  let speed3 := speed2 * c.friction ^ (delta * 60)
  -- clamp speed
  let speed4 := max (min speed3 c.maxSpeed) (-c.maxSpeed * 0.5)
  -- gradually apply steering
  let steering1 :=
    if ctrl.left then c.steeringAngle + scaledSteeringSpeed
    else if ctrl.right then c.steeringAngle - scaledSteeringSpeed
    else if c.steeringAngle > 0 then max 0 (c.steeringAngle - scaledSteeringReturn)
    else if c.steeringAngle < 0 then min 0 (c.steeringAngle + scaledSteeringReturn)
    else c.steeringAngle
  -- clamp steering angle
  let steering2 := max (min steering1 c.maxSteeringAngle) (-c.maxSteeringAngle)
  -- turning effect proportional to speed
  let turnEffect := steering2 * |speed4| / c.maxSpeed
  let rot2 := pose.rotationY + turnEffect * Real.sign speed4
  -- direction: (0,0,1) rotated about the y axis by the car rotation
  let dir : Vec3 := ⟨Real.sin rot2, 0, Real.cos rot2⟩
  -- hover bob overwrites the y coordinate
  let hoverHeight := 0.8 + Real.sin (nowMs * 0.003) * 0.1
  ({ c with speed := speed4, steeringAngle := steering2, direction := dir },
   { position := ⟨pose.position.x + dir.x * speed4, hoverHeight,
                  pose.position.z + dir.z * speed4⟩
     rotationY := rot2 })

/-! ## Plain driving game (simple-js/game.js) -/

/-- The `carData` record of game.js (`velocity` is never read). -/
structure SimpleCarData where
  speed : ℝ
  maxSpeed : ℝ
  acceleration : ℝ
  deceleration : ℝ
  turnSpeed : ℝ
  friction : ℝ
  brakeStrength : ℝ
  direction : Vec3

/-- The initial `carData` values of game.js. -/
noncomputable def initialSimpleCarData : SimpleCarData :=
  { speed := 0
    maxSpeed := 0.3
    acceleration := 0.005
    deceleration := 0.003
    turnSpeed := 0.03
    friction := 0.95
    brakeStrength := 0.1
    direction := ⟨0, 0, 1⟩ }

/-- `updateCar()` of game.js, lines 290-347 (the trailing camera update is
omitted: it only moves the camera).  There is no time delta in this variant. -/
noncomputable def updateCarSimple (c : SimpleCarData) (pose : CarPose)
    (ctrl : Controls) : SimpleCarData × CarPose :=
  -- acceleration / braking / deceleration
  let speed1 :=
    if ctrl.forward then c.speed + c.acceleration
    else if ctrl.backward then
      (if c.speed > 0 then c.speed - c.brakeStrength
       else c.speed - c.acceleration / 2)
    else
      let sd := if c.speed > 0 then c.speed - c.deceleration
                else if c.speed < 0 then c.speed + c.deceleration
                else c.speed
      if |sd| < c.deceleration then 0 else sd
  -- speed limits
  let speed2 :=
    if speed1 > c.maxSpeed then c.maxSpeed
    else if speed1 < -c.maxSpeed / 2 then -c.maxSpeed / 2
    else speed1
  -- turning (only when moving)
  let rot1 := if |speed2| > 0.01 ∧ ctrl.left then
      pose.rotationY + c.turnSpeed * Real.sign speed2 else pose.rotationY
  let rot2 := if |speed2| > 0.01 ∧ ctrl.right then
      rot1 - c.turnSpeed * Real.sign speed2 else rot1
  let dir : Vec3 := ⟨Real.sin rot2, 0, Real.cos rot2⟩
  ({ c with speed := speed2, direction := dir },
   { position := ⟨pose.position.x + dir.x * speed2, 0,
                  pose.position.z + dir.z * speed2⟩
     rotationY := rot2 })

/-! ## Witcher game: enemy aggro state machine
(witcher-game/src/components/game/Game.tsx, `Enemy` component) -/

/-- The enemy `type` field. -/
inductive EnemyType
  | wolf
  | bear
  | deer
deriving DecidableEq

/-- The enemy `aggroState` field. -/
inductive AggroState
  | idle
  | chase
  | attack
  | flee
deriving DecidableEq

/-- The `Enemy` state record of the witcher game (types/game.ts plus the
per-frame state of the `Enemy` component; `isBlocking` is never used for
enemies). -/
structure EnemyState where
  etype : EnemyType
  position : Vec3
  rotationY : ℝ
  health : ℝ
  maxHealth : ℝ
  isAttacking : Bool
  isDead : Bool
  aggroState : AggroState
  detectionRadius : ℝ
  attackRadius : ℝ
  attackPower : ℝ

/-- The per-type `baseStats` table in the `Enemy` component. -/
structure EnemyBaseStats where
  health : ℝ
  maxHealth : ℝ
  detectionRadius : ℝ
  attackRadius : ℝ
  attackPower : ℝ

/-- `baseStats` of the `Enemy` component: wolf, bear and deer constants. -/
noncomputable def baseStats : EnemyType → EnemyBaseStats
  | EnemyType.wolf => ⟨50, 50, 15, 2, 10⟩
  | EnemyType.bear => ⟨100, 100, 12, 2.5, 20⟩
  | EnemyType.deer => ⟨30, 30, 18, 0, 0⟩

/-- The initial enemy state built in the `Enemy` component's `useState`
initializer. -/
noncomputable def mkEnemy (t : EnemyType) (pos : Vec3) : EnemyState :=
  { etype := t
    position := pos
    rotationY := 0
    health := (baseStats t).health
    maxHealth := (baseStats t).maxHealth
    isAttacking := false
    isDead := false
    aggroState := AggroState.idle
    detectionRadius := (baseStats t).detectionRadius
    attackRadius := (baseStats t).attackRadius
    attackPower := (baseStats t).attackPower }

/-- `attackCooldown` of the `Enemy` component: 1 second between attacks. -/
noncomputable def attackCooldown : ℝ := 1000

/-- Result of one enemy AI frame: the updated enemy, the updated
`lastAttackTime` ref, and the damage value passed to `onAttackPlayer` when an
attack event is emitted this frame. -/
structure EnemyFrameResult where
  enemy : EnemyState
  lastAttackTime : ℝ
  attackEvent : Option ℝ

/-- One `useFrame` step of the `Enemy` component's AI (Game.tsx `Enemy`,
lines 365-462).  `playerPos` is `playerPosition`, `delta` the frame delta,
`now` the value of `Date.now()`, `lastAttackTime` the cooldown ref.  The
`setTimeout` that clears `isAttacking` after 300 ms is asynchronous visual
state and is not part of the frame step. -/
noncomputable def enemyFrame (e : EnemyState) (playerPos : Vec3)
    (delta now lastAttackTime : ℝ) : EnemyFrameResult :=
  if e.isDead then ⟨e, lastAttackTime, none⟩
  else
    let distanceToPlayer := dist3 e.position playerPos
    if distanceToPlayer ≤ e.attackRadius ∧ e.etype ≠ EnemyType.deer then
      -- attack range: try to attack the player on cooldown
      let e1 := { e with aggroState := AggroState.attack }
      if now - lastAttackTime > attackCooldown then
        ⟨{ e1 with isAttacking := true }, now, some e1.attackPower⟩
      else ⟨e1, lastAttackTime, none⟩
    else if distanceToPlayer ≤ e.detectionRadius then
      if e.etype = EnemyType.deer then
        -- deer flee: move directly away from the player, face away
        let dir := normalize3 (e.position - playerPos)
        let speed := 0.08 * delta * 60
        ⟨{ e with aggroState := AggroState.flee
                  rotationY := mathAtan2 dir.x dir.z
                  position := ⟨e.position.x + dir.x * speed, e.position.y,
                               e.position.z + dir.z * speed⟩ },
         lastAttackTime, none⟩
      else
        -- predators chase: move toward the player, face the player
        let dir := normalize3 (playerPos - e.position)
        let speed := 0.05 * delta * 60
        ⟨{ e with aggroState := AggroState.chase
                  rotationY := mathAtan2 dir.x dir.z
                  position := ⟨e.position.x + dir.x * speed, e.position.y,
                               e.position.z + dir.z * speed⟩ },
         lastAttackTime, none⟩
    else
      -- outside detection range: idle
      ⟨{ e with aggroState := AggroState.idle }, lastAttackTime, none⟩

/-- The inputs of one frame for a run of the enemy AI: the `Date.now()`
timestamp, the player position and the frame delta. -/
structure FrameInput where
  now : ℝ
  playerPos : Vec3
  delta : ℝ

/-- Run the enemy AI over a sequence of frames, collecting the timestamps of
the attack events it emits. -/
noncomputable def enemyRun (e : EnemyState) (lastAttackTime : ℝ) :
    List FrameInput → EnemyState × ℝ × List ℝ
  | [] => (e, lastAttackTime, [])
  | f :: fs =>
    let r := enemyFrame e f.playerPos f.delta f.now lastAttackTime
    let rest := enemyRun r.enemy r.lastAttackTime fs
    (rest.1, rest.2.1,
     (match r.attackEvent with
      | some _ => [f.now]
      | none => []) ++ rest.2.2)

/-! ## Witcher game: combat and game state (Game.tsx handlers, Enemy.takeDamage) -/

/-- The `GameState` record of types/game.ts. -/
structure GameState where
  isGameActive : Bool
  playerHealth : ℝ
  score : ℝ

/-- The enemy listing of the `enemies` state array in Game.tsx. -/
structure EnemyListing where
  id : String
  etype : EnemyType
  position : Vec3

/-- `const actualDamage = controls.block ? Math.ceil(damage / 2) : damage`
in `handleEnemyAttack` (Game.tsx line 191). -/
noncomputable def actualDamage (block : Bool) (damage : ℝ) : ℝ :=
  if block then ((⌈damage / 2⌉ : ℤ) : ℝ) else damage

/-- `handleEnemyAttack(damage)` of Game.tsx, lines 189-210: apply an enemy
damage event to the player, halving (rounded up) when the player's block flag
is active at the moment of receipt. -/
noncomputable def handleEnemyAttack (s : GameState) (block : Bool)
    (damage : ℝ) : GameState :=
  let ad := actualDamage block damage
  let newHealth := max 0 (s.playerHealth - ad)
  if newHealth ≤ 0 ∧ s.isGameActive then
    { s with playerHealth := 0, isGameActive := false }
  else
    { s with playerHealth := newHealth }

/-- `handleEnemyDeath(id)` of Game.tsx, lines 213-221: remove the enemy from
the collection and increase the score by 10. -/
noncomputable def handleEnemyDeath (s : GameState)
    (enemies : List EnemyListing) (id : String) :
    GameState × List EnemyListing :=
  ({ s with score := s.score + 10 },
   enemies.filter (fun e => e.id ≠ id))

/-- `takeDamage(amount)` of the `Enemy` component (Game.tsx lines 465-478):
reduce health (floored at 0), mark dead when it reaches 0; the returned
Boolean records whether `onDeath` fires for this hit. -/
noncomputable def takeDamage (e : EnemyState) (amount : ℝ) :
    EnemyState × Bool :=
  let newHealth := max 0 (e.health - amount)
  let isDead : Bool := if newHealth ≤ 0 then true else false
  ({ e with health := newHealth, isDead := isDead }, isDead)

/-- Apply a sequence of player hits through the `takeDamage` entry point the
program actually exposes.  `group.current.takeDamage` is assigned by a
`useEffect` whose dependency array is `[id]`; `id` never changes, so the
effect runs once and the property holds the first-render closure forever.
That closure computes `newHealth = Math.max(0, enemy.health - amount)` from
the `enemy` state it captured at the first render (`captured` here, the
initial state), not from the current state; its `setEnemy` then overwrites
the live health and death flag with the values so computed.  Returns the
final live state and how many `onDeath` events fired. -/
noncomputable def runAttacksStale (captured : EnemyState) :
    EnemyState → List ℝ → EnemyState × ℕ
  | e, [] => (e, 0)
  | e, a :: as =>
    let r := takeDamage captured a
    let e1 := { e with health := r.1.health, isDead := r.1.isDead }
    let rest := runAttacksStale captured e1 as
    (rest.1, (if r.2 then 1 else 0) + rest.2)

/-! ## Witcher game: player movement (Player.tsx `useFrame`) -/

/-- The `GameControls` record of types/game.ts. -/
structure GameControls where
  moveForward : Bool
  moveBackward : Bool
  moveLeft : Bool
  moveRight : Bool
  attack : Bool
  block : Bool

/-- The camera-relative movement direction accumulated from the
forward/right/left inputs in Player.tsx lines 60-85: the camera forward and
right vectors are flattened onto the xz plane and normalized, then summed
according to the pressed keys (`moveBackward` is deliberately excluded). -/
noncomputable def moveDirection (ctrl : GameControls)
    (camForwardRaw camRightRaw : Vec3) : Vec3 :=
  let cameraForward := normalize3 ⟨camForwardRaw.x, 0, camForwardRaw.z⟩
  let cameraRight := normalize3 ⟨camRightRaw.x, 0, camRightRaw.z⟩
  let md1 := if ctrl.moveForward then (0 : Vec3) + cameraForward else 0
  let md2 := if ctrl.moveRight then md1 + cameraRight else md1
  if ctrl.moveLeft then md2 - cameraRight else md2

/-- The movement part of the `Player` component's `useFrame` step
(Player.tsx lines 53-215): returns the new position and the new y rotation.
`camForwardRaw`/`camRightRaw` are `(0,0,-1)` and `(1,0,0)` transformed by the
camera quaternion (inputs of the step).  Camera smoothing and animation state
are omitted: they do not touch the player transform. -/
noncomputable def playerStep (pos : Vec3) (rotY moveSpeed : ℝ)
    (ctrl : GameControls) (camForwardRaw camRightRaw : Vec3)
    (delta : ℝ) : Vec3 × ℝ :=
  let md := moveDirection ctrl camForwardRaw camRightRaw
  let moveDistance := moveSpeed * delta * 60
  if ctrl.moveBackward ∧ norm3 md = 0 then
    -- only backward: move directly backward without rotation, no clamp
    let backDir : Vec3 := ⟨-Real.sin rotY, 0, -Real.cos rotY⟩
    (⟨pos.x + backDir.x * moveDistance, pos.y,
      pos.z + backDir.z * moveDistance⟩, rotY)
  else if norm3 md > 0 then
    let md1 := normalize3 md
    -- backward influence while strafing or moving forward
    let md2 := if ctrl.moveBackward then
        normalize3 (md1 + (0.3 : ℝ) • ⟨-Real.sin rotY, 0, -Real.cos rotY⟩)
      else md1
    -- smooth rotation toward the movement direction
    let targetRotation := mathAtan2 md2.x md2.z
    let rotDiff := targetRotation - rotY
    let adj0 := jsRem (rotDiff + Real.pi) (2 * Real.pi) - Real.pi
    let adj := if adj0 < -Real.pi then adj0 + 2 * Real.pi else adj0
    let rotY2 := rotY + adj * 0.15
    -- apply movement, then boundary clamp to [-50, 50]
    let x1 := pos.x + md2.x * moveDistance
    let z1 := pos.z + md2.z * moveDistance
    (⟨max (-50) (min 50 x1), pos.y, max (-50) (min 50 z1)⟩, rotY2)
  else (pos, rotY)

/-! ## Theorems -/

/-- Clamping `max (min s M) (-M * 0.5)` lands in `[-M * 0.5, M]` when
`0 ≤ M`. -/
lemma clamp_mem (s M : ℝ) (hM : 0 ≤ M) :
    -M * 0.5 ≤ max (min s M) (-M * 0.5) ∧ max (min s M) (-M * 0.5) ≤ M := by
  constructor
  · exact le_max_right _ _
  · exact max_le (min_le_right _ _) (by linarith)

/-- Claim C1: for every vehicle state, every combination of control flags and
every elapsed-time delta, after one frame step of the vehicle update the
clamped speed lies in `[-maxSpeed * 0.5, maxSpeed]` (hence
`|speed| ≤ maxSpeed`), in both the hover-tank variant (`updateCar` of
CarGame.tsx) and the plain driving variant (`updateCar` of game.js).  The
program's `maxSpeed` constants (0.4 and 0.3) are nonnegative, which is the
only fact about them the bound needs. -/
theorem updateCar_speed_clamped :
    (∀ (c : CarData) (pose : CarPose) (ctrl : Controls) (delta nowMs : ℝ),
      0 ≤ c.maxSpeed →
      -c.maxSpeed * 0.5 ≤ (updateCar c pose ctrl delta nowMs).1.speed ∧
      (updateCar c pose ctrl delta nowMs).1.speed ≤ c.maxSpeed ∧
      |(updateCar c pose ctrl delta nowMs).1.speed| ≤ c.maxSpeed) ∧
    (∀ (c : SimpleCarData) (pose : CarPose) (ctrl : Controls),
      0 ≤ c.maxSpeed →
      -c.maxSpeed * 0.5 ≤ (updateCarSimple c pose ctrl).1.speed ∧
      (updateCarSimple c pose ctrl).1.speed ≤ c.maxSpeed ∧
      |(updateCarSimple c pose ctrl).1.speed| ≤ c.maxSpeed) := by
  constructor
  · intro c pose ctrl delta nowMs hM
    have h := clamp_mem
      ((if ctrl.backward then
          (if (if ctrl.forward then c.speed + c.acceleration * delta * 60 else c.speed) > 0 then
            (if ctrl.forward then c.speed + c.acceleration * delta * 60 else c.speed) -
              c.brakeStrength * delta * 60
          else
            (if ctrl.forward then c.speed + c.acceleration * delta * 60 else c.speed) -
              c.acceleration * delta * 60 * 0.5)
        else (if ctrl.forward then c.speed + c.acceleration * delta * 60 else c.speed)) *
        c.friction ^ (delta * 60)) c.maxSpeed hM
    have hs : (updateCar c pose ctrl delta nowMs).1.speed =
        max (min ((if ctrl.backward then
          (if (if ctrl.forward then c.speed + c.acceleration * delta * 60 else c.speed) > 0 then
            (if ctrl.forward then c.speed + c.acceleration * delta * 60 else c.speed) -
              c.brakeStrength * delta * 60
          else
            (if ctrl.forward then c.speed + c.acceleration * delta * 60 else c.speed) -
              c.acceleration * delta * 60 * 0.5)
        else (if ctrl.forward then c.speed + c.acceleration * delta * 60 else c.speed)) *
        c.friction ^ (delta * 60)) c.maxSpeed) (-c.maxSpeed * 0.5) := rfl
    refine ⟨hs ▸ h.1, hs ▸ h.2, ?_⟩
    rw [abs_le]
    exact ⟨by have := hs ▸ h.1; linarith, hs ▸ h.2⟩
  · intro c pose ctrl hM
    have hs : (updateCarSimple c pose ctrl).1.speed =
        (let speed1 :=
          if ctrl.forward then c.speed + c.acceleration
          else if ctrl.backward then
            (if c.speed > 0 then c.speed - c.brakeStrength
            else c.speed - c.acceleration / 2)
          else
            let sd := if c.speed > 0 then c.speed - c.deceleration
                      else if c.speed < 0 then c.speed + c.deceleration
                      else c.speed
            if |sd| < c.deceleration then 0 else sd
        if speed1 > c.maxSpeed then c.maxSpeed
        else if speed1 < -c.maxSpeed / 2 then -c.maxSpeed / 2
        else speed1) := rfl
    rw [hs]
    set speed1 :=
      if ctrl.forward then c.speed + c.acceleration
      else if ctrl.backward then
        (if c.speed > 0 then c.speed - c.brakeStrength
        else c.speed - c.acceleration / 2)
      else
        let sd := if c.speed > 0 then c.speed - c.deceleration
                  else if c.speed < 0 then c.speed + c.deceleration
                  else c.speed
        if |sd| < c.deceleration then 0 else sd with hsp
    simp only
    split_ifs with h1 h2
    · refine ⟨by linarith, le_refl _, ?_⟩
      rw [abs_le]; constructor <;> linarith
    · refine ⟨by linarith, by linarith, ?_⟩
      rw [abs_le]; constructor <;> linarith
    · push_neg at h1 h2
      refine ⟨by linarith, by linarith, ?_⟩
      rw [abs_le]; constructor <;> linarith

/-- Witness for C1: the bound instantiated at the programs' initial car data,
a concrete pose, concrete controls and the reference frame delta. -/
theorem updateCar_speed_clamped_witness :
    (-initialCarData.maxSpeed * 0.5 ≤
        (updateCar initialCarData ⟨⟨0, 0, 0⟩, 0⟩ ⟨true, false, false, false, false⟩
          0.016 0).1.speed ∧
      (updateCar initialCarData ⟨⟨0, 0, 0⟩, 0⟩ ⟨true, false, false, false, false⟩
          0.016 0).1.speed ≤ initialCarData.maxSpeed ∧
      |(updateCar initialCarData ⟨⟨0, 0, 0⟩, 0⟩ ⟨true, false, false, false, false⟩
          0.016 0).1.speed| ≤ initialCarData.maxSpeed) ∧
    (-initialSimpleCarData.maxSpeed * 0.5 ≤
        (updateCarSimple initialSimpleCarData ⟨⟨0, 0, 0⟩, 0⟩
          ⟨true, false, false, false, false⟩).1.speed ∧
      (updateCarSimple initialSimpleCarData ⟨⟨0, 0, 0⟩, 0⟩
          ⟨true, false, false, false, false⟩).1.speed ≤ initialSimpleCarData.maxSpeed ∧
      |(updateCarSimple initialSimpleCarData ⟨⟨0, 0, 0⟩, 0⟩
          ⟨true, false, false, false, false⟩).1.speed| ≤ initialSimpleCarData.maxSpeed) :=
  ⟨updateCar_speed_clamped.1 initialCarData ⟨⟨0, 0, 0⟩, 0⟩
      ⟨true, false, false, false, false⟩ 0.016 0 (by norm_num [initialCarData]),
   updateCar_speed_clamped.2 initialSimpleCarData ⟨⟨0, 0, 0⟩, 0⟩
      ⟨true, false, false, false, false⟩ (by norm_num [initialSimpleCarData])⟩

/-- Claim C7: in a hover-tank frame step with `backward = true`, writing `s1`
for the speed at the moment the braking branch runs (the current speed, plus
the scaled acceleration if `forward` is also held), the step subtracts the
delta-scaled `brakeStrength` when `s1 > 0` and half the delta-scaled
`acceleration` otherwise; friction and the clamp are then applied to the
result. -/
theorem updateCar_backward_brake_or_reverse :
    ∀ (c : CarData) (pose : CarPose) (ctrl : Controls) (delta nowMs : ℝ),
    ctrl.backward = true →
    (updateCar c pose ctrl delta nowMs).1.speed =
      max (min
        ((if 0 < c.speed + (if ctrl.forward then c.acceleration * delta * 60 else 0)
          then c.speed + (if ctrl.forward then c.acceleration * delta * 60 else 0) -
            c.brakeStrength * delta * 60
          else c.speed + (if ctrl.forward then c.acceleration * delta * 60 else 0) -
            c.acceleration * delta * 60 * 0.5) *
          c.friction ^ (delta * 60)) c.maxSpeed) (-c.maxSpeed * 0.5) := by
  intro c pose ctrl delta nowMs hb
  cases hf : ctrl.forward <;> simp [updateCar, hb, hf]

/-- Witness for C7: the braking equation instantiated at the initial car
data, braking from standstill (`speed = 0`, so the reverse half-acceleration
branch applies). -/
theorem updateCar_backward_brake_or_reverse_witness :
    (updateCar initialCarData ⟨⟨0, 0, 0⟩, 0⟩ ⟨false, true, false, false, false⟩
        0.016 0).1.speed =
      max (min
        ((if 0 < initialCarData.speed + 0
          then initialCarData.speed + 0 - initialCarData.brakeStrength * 0.016 * 60
          else initialCarData.speed + 0 - initialCarData.acceleration * 0.016 * 60 * 0.5) *
          initialCarData.friction ^ ((0.016 : ℝ) * 60)) initialCarData.maxSpeed)
        (-initialCarData.maxSpeed * 0.5) :=
  updateCar_backward_brake_or_reverse initialCarData ⟨⟨0, 0, 0⟩, 0⟩
    ⟨false, true, false, false, false⟩ 0.016 0 rfl

/-- Lower bound for the per-frame friction factor of the hover tank:
`0.99 ^ (delta * 60) ≥ 1 - delta * 60 / 99` for `delta ≥ 0`. -/
lemma friction_pow_lower (delta : ℝ) (hd : 0 ≤ delta) :
    1 - delta * 60 / 99 ≤ (0.99 : ℝ) ^ (delta * 60) := by
  have hlog : -(1 / 99 : ℝ) ≤ Real.log 0.99 := by
    have h1 : Real.log (100 / 99) ≤ 100 / 99 - 1 :=
      Real.log_le_sub_one_of_pos (by norm_num)
    have h2 : Real.log (0.99 : ℝ) = -Real.log (100 / 99) := by
      rw [← Real.log_inv]
      norm_num
    rw [h2]
    have h3 : (100 : ℝ) / 99 - 1 = 1 / 99 := by norm_num
    linarith
  have hy : (0 : ℝ) ≤ delta * 60 := mul_nonneg hd (by norm_num)
  rw [Real.rpow_def_of_pos (by norm_num : (0 : ℝ) < 0.99)]
  have h3 : Real.log 0.99 * (delta * 60) + 1 ≤
      Real.exp (Real.log 0.99 * (delta * 60)) := Real.add_one_le_exp _
  have h4 : -(1 / 99 : ℝ) * (delta * 60) ≤ Real.log 0.99 * (delta * 60) :=
    mul_le_mul_of_nonneg_right hlog hy
  nlinarith [h3, h4]

/-- Claim C3: with `forward` held (and `backward` off) at a fixed capped
delta, a hover-tank frame step from any speed in `[0, maxSpeed)` strictly
increases the speed while keeping it at most `maxSpeed = 0.4`, and from speed
exactly `maxSpeed` leaves it at `maxSpeed` (the clamp holds it there). -/
theorem updateCar_forward_speed_increases :
    ∀ (s delta : ℝ) (l r sh : Bool) (pose : CarPose) (nowMs : ℝ),
    0 < delta → delta ≤ 0.1 →
    ((0 ≤ s → s < 0.4 →
        s < (updateCar { initialCarData with speed := s } pose
              ⟨true, false, l, r, sh⟩ delta nowMs).1.speed ∧
        (updateCar { initialCarData with speed := s } pose
              ⟨true, false, l, r, sh⟩ delta nowMs).1.speed ≤ 0.4) ∧
      (s = 0.4 →
        (updateCar { initialCarData with speed := s } pose
              ⟨true, false, l, r, sh⟩ delta nowMs).1.speed = 0.4)) := by
  intro s delta l r sh pose nowMs hd hdcap
  have hform : (updateCar { initialCarData with speed := s } pose
        ⟨true, false, l, r, sh⟩ delta nowMs).1.speed =
      max (min ((s + 0.008 * delta * 60) * (0.99 : ℝ) ^ (delta * 60)) 0.4)
        (-0.4 * 0.5) := rfl
  have hf := friction_pow_lower delta hd.le
  constructor
  · intro hs0 hs4
    have hsa : (0 : ℝ) ≤ s + 0.008 * delta * 60 := by
      have := mul_nonneg (mul_nonneg (by norm_num : (0:ℝ) ≤ 0.008) hd.le)
        (by norm_num : (0:ℝ) ≤ 60)
      linarith
    have h1 : (s + 0.008 * delta * 60) * (1 - delta * 60 / 99) ≤
        (s + 0.008 * delta * 60) * (0.99 : ℝ) ^ (delta * 60) :=
      mul_le_mul_of_nonneg_left hf hsa
    have key : 0 < delta * (47.52 - 60 * s - 28.8 * delta) :=
      mul_pos hd (by linarith)
    have h2 : s < (s + 0.008 * delta * 60) * (1 - delta * 60 / 99) := by
      nlinarith [key]
    have hv : s < (s + 0.008 * delta * 60) * (0.99 : ℝ) ^ (delta * 60) :=
      lt_of_lt_of_le h2 h1
    constructor
    · rw [hform]
      exact lt_of_lt_of_le (lt_min hv hs4) (le_max_left _ _)
    · rw [hform]
      exact max_le (min_le_right _ _) (by norm_num)
  · intro hs4
    subst hs4
    have hsa : (0 : ℝ) ≤ 0.4 + 0.008 * delta * 60 := by
      have := mul_nonneg (mul_nonneg (by norm_num : (0:ℝ) ≤ 0.008) hd.le)
        (by norm_num : (0:ℝ) ≤ 60)
      linarith
    have h1 : (0.4 + 0.008 * delta * 60) * (1 - delta * 60 / 99) ≤
        (0.4 + 0.008 * delta * 60) * (0.99 : ℝ) ^ (delta * 60) :=
      mul_le_mul_of_nonneg_left hf hsa
    have key2 : 0 ≤ delta * (23.52 - 28.8 * delta) :=
      mul_nonneg hd.le (by linarith)
    have hv : (0.4 : ℝ) ≤ (0.4 + 0.008 * delta * 60) * (0.99 : ℝ) ^ (delta * 60) := by
      nlinarith [h1, key2]
    rw [hform, min_eq_right hv, max_eq_left (by norm_num : (-0.4 * 0.5 : ℝ) ≤ 0.4)]

/-- Witness for C3: at speed 0 with the reference 60 Hz delta, one
forward-held frame step strictly increases the speed, and at speed 0.4 the
step keeps it at 0.4. -/
theorem updateCar_forward_speed_increases_witness :
    ((0 : ℝ) < (updateCar { initialCarData with speed := 0 } ⟨⟨0, 0, 0⟩, 0⟩
        ⟨true, false, false, false, false⟩ 0.016 0).1.speed ∧
      (updateCar { initialCarData with speed := 0 } ⟨⟨0, 0, 0⟩, 0⟩
        ⟨true, false, false, false, false⟩ 0.016 0).1.speed ≤ 0.4) ∧
    (updateCar { initialCarData with speed := 0.4 } ⟨⟨0, 0, 0⟩, 0⟩
        ⟨true, false, false, false, false⟩ 0.016 0).1.speed = 0.4 :=
  ⟨(updateCar_forward_speed_increases 0 0.016 false false false ⟨⟨0, 0, 0⟩, 0⟩ 0
      (by norm_num) (by norm_num)).1 (le_refl 0) (by norm_num),
   (updateCar_forward_speed_increases 0.4 0.016 false false false ⟨⟨0, 0, 0⟩, 0⟩ 0
      (by norm_num) (by norm_num)).2 rfl⟩

/-- Claim C8 counterexample: with all control flags false and speed 0, the
hover-tank frame step does NOT leave the position unchanged in general: the
cosmetic bob overwrites the y coordinate with a wall-clock-dependent hover
height.  At `Date.now() = (500/3)·π` ms the bob is at its peak and the car at
its initial height 0.8 moves to height 0.9. -/
theorem updateCar_position_bob_counterexample :
    (updateCar initialCarData ⟨⟨0, 0.8, 0⟩, 0⟩ ⟨false, false, false, false, false⟩
        0.016 ((500 / 3) * Real.pi)).2.position ≠ (⟨0, 0.8, 0⟩ : Vec3) := by
  intro h
  have hy : (0.8 : ℝ) + Real.sin (((500 / 3 : ℝ) * Real.pi) * 0.003) * 0.1 = 0.8 :=
    congrArg Vec3.y h
  rw [show ((500 / 3 : ℝ) * Real.pi) * 0.003 = Real.pi / 2 by ring,
    Real.sin_pi_div_two] at hy
  norm_num at hy

/-- Claim C8 (amended): with all control flags false and speed exactly 0, a
frame step leaves the x and z coordinates unchanged in both variants.  The
plain driving variant pins y to 0, so its position is fully unchanged
whenever y is already 0; the hover-tank variant overwrites y with the
wall-clock hover height `0.8 + sin(now·0.003)·0.1`, so only x and z are
fixed there. -/
theorem updateCar_zero_speed_position_amended :
    (∀ (c : CarData) (pose : CarPose) (delta nowMs : ℝ),
      c.speed = 0 → 0 ≤ c.maxSpeed →
      (updateCar c pose ⟨false, false, false, false, false⟩
          delta nowMs).2.position.x = pose.position.x ∧
      (updateCar c pose ⟨false, false, false, false, false⟩
          delta nowMs).2.position.z = pose.position.z ∧
      (updateCar c pose ⟨false, false, false, false, false⟩
          delta nowMs).2.position.y = 0.8 + Real.sin (nowMs * 0.003) * 0.1) ∧
    (∀ (c : SimpleCarData) (pose : CarPose),
      c.speed = 0 → 0 ≤ c.maxSpeed →
      (updateCarSimple c pose ⟨false, false, false, false, false⟩).2.position.x =
        pose.position.x ∧
      (updateCarSimple c pose ⟨false, false, false, false, false⟩).2.position.z =
        pose.position.z ∧
      (updateCarSimple c pose ⟨false, false, false, false, false⟩).2.position.y = 0 ∧
      (pose.position.y = 0 →
        (updateCarSimple c pose ⟨false, false, false, false, false⟩).2.position =
          pose.position)) := by
  constructor
  · intro c pose delta nowMs hc hM
    have hS : (updateCar c pose ⟨false, false, false, false, false⟩
        delta nowMs).1.speed =
        max (min (c.speed * c.friction ^ (delta * 60)) c.maxSpeed)
          (-c.maxSpeed * 0.5) := rfl
    have hS0 : (updateCar c pose ⟨false, false, false, false, false⟩
        delta nowMs).1.speed = 0 := by
      rw [hS, hc, zero_mul, min_eq_left hM, max_eq_left (by linarith)]
    have hx : (updateCar c pose ⟨false, false, false, false, false⟩
        delta nowMs).2.position.x =
        pose.position.x +
          (updateCar c pose ⟨false, false, false, false, false⟩
            delta nowMs).1.direction.x *
          (updateCar c pose ⟨false, false, false, false, false⟩
            delta nowMs).1.speed := rfl
    have hz : (updateCar c pose ⟨false, false, false, false, false⟩
        delta nowMs).2.position.z =
        pose.position.z +
          (updateCar c pose ⟨false, false, false, false, false⟩
            delta nowMs).1.direction.z *
          (updateCar c pose ⟨false, false, false, false, false⟩
            delta nowMs).1.speed := rfl
    refine ⟨?_, ?_, rfl⟩
    · rw [hx, hS0, mul_zero, add_zero]
    · rw [hz, hS0, mul_zero, add_zero]
  · intro c pose hc hM
    have hS0 : (updateCarSimple c pose ⟨false, false, false, false, false⟩).1.speed
        = 0 := by
      simp only [updateCarSimple, hc]
      norm_num
      simp [not_lt.mpr hM]
    have hx : (updateCarSimple c pose ⟨false, false, false, false, false⟩).2.position.x =
        pose.position.x +
          (updateCarSimple c pose ⟨false, false, false, false, false⟩).1.direction.x *
          (updateCarSimple c pose ⟨false, false, false, false, false⟩).1.speed := rfl
    have hz : (updateCarSimple c pose ⟨false, false, false, false, false⟩).2.position.z =
        pose.position.z +
          (updateCarSimple c pose ⟨false, false, false, false, false⟩).1.direction.z *
          (updateCarSimple c pose ⟨false, false, false, false, false⟩).1.speed := rfl
    have h1 : (updateCarSimple c pose ⟨false, false, false, false, false⟩).2.position.x =
        pose.position.x := by rw [hx, hS0, mul_zero, add_zero]
    have h3 : (updateCarSimple c pose ⟨false, false, false, false, false⟩).2.position.z =
        pose.position.z := by rw [hz, hS0, mul_zero, add_zero]
    refine ⟨h1, h3, rfl, ?_⟩
    intro hy0
    ext
    · exact h1
    · exact hy0.symm
    · exact h3

/-- Witness for C8 (amended): at the initial car data (speed 0) and concrete
poses, x and z are unchanged by a no-input frame step in both variants, and
the plain variant's position is fully unchanged from height 0. -/
theorem updateCar_zero_speed_position_amended_witness :
    ((updateCar initialCarData ⟨⟨1, 2, 3⟩, 0⟩ ⟨false, false, false, false, false⟩
        0.016 0).2.position.x = (⟨⟨1, 2, 3⟩, 0⟩ : CarPose).position.x ∧
      (updateCar initialCarData ⟨⟨1, 2, 3⟩, 0⟩ ⟨false, false, false, false, false⟩
        0.016 0).2.position.z = (⟨⟨1, 2, 3⟩, 0⟩ : CarPose).position.z ∧
      (updateCar initialCarData ⟨⟨1, 2, 3⟩, 0⟩ ⟨false, false, false, false, false⟩
        0.016 0).2.position.y = 0.8 + Real.sin ((0 : ℝ) * 0.003) * 0.1) ∧
    ((updateCarSimple initialSimpleCarData ⟨⟨1, 0, 3⟩, 0⟩
        ⟨false, false, false, false, false⟩).2.position.x =
        (⟨⟨1, 0, 3⟩, 0⟩ : CarPose).position.x ∧
      (updateCarSimple initialSimpleCarData ⟨⟨1, 0, 3⟩, 0⟩
        ⟨false, false, false, false, false⟩).2.position.z =
        (⟨⟨1, 0, 3⟩, 0⟩ : CarPose).position.z ∧
      (updateCarSimple initialSimpleCarData ⟨⟨1, 0, 3⟩, 0⟩
        ⟨false, false, false, false, false⟩).2.position.y = 0 ∧
      ((⟨⟨1, 0, 3⟩, 0⟩ : CarPose).position.y = 0 →
        (updateCarSimple initialSimpleCarData ⟨⟨1, 0, 3⟩, 0⟩
          ⟨false, false, false, false, false⟩).2.position =
          (⟨⟨1, 0, 3⟩, 0⟩ : CarPose).position)) :=
  ⟨updateCar_zero_speed_position_amended.1 initialCarData ⟨⟨1, 2, 3⟩, 0⟩ 0.016 0
      rfl (by norm_num [initialCarData]),
   updateCar_zero_speed_position_amended.2 initialSimpleCarData ⟨⟨1, 0, 3⟩, 0⟩
      rfl (by norm_num [initialSimpleCarData])⟩

@[simp] lemma Vec3.add_x (a b : Vec3) : (a + b).x = a.x + b.x := rfl

@[simp] lemma Vec3.add_y (a b : Vec3) : (a + b).y = a.y + b.y := rfl

@[simp] lemma Vec3.add_z (a b : Vec3) : (a + b).z = a.z + b.z := rfl

@[simp] lemma Vec3.sub_x (a b : Vec3) : (a - b).x = a.x - b.x := rfl

@[simp] lemma Vec3.sub_y (a b : Vec3) : (a - b).y = a.y - b.y := rfl

@[simp] lemma Vec3.sub_z (a b : Vec3) : (a - b).z = a.z - b.z := rfl

@[simp] lemma Vec3.smul_x (r : ℝ) (v : Vec3) : (r • v).x = r * v.x := rfl

@[simp] lemma Vec3.smul_y (r : ℝ) (v : Vec3) : (r • v).y = r * v.y := rfl

@[simp] lemma Vec3.smul_z (r : ℝ) (v : Vec3) : (r • v).z = r * v.z := rfl

@[simp] lemma Vec3.zero_x : (0 : Vec3).x = 0 := rfl

@[simp] lemma Vec3.zero_y : (0 : Vec3).y = 0 := rfl

@[simp] lemma Vec3.zero_z : (0 : Vec3).z = 0 := rfl

/-- The length of a difference vector is symmetric. -/
lemma norm3_sub_symm (a b : Vec3) : norm3 (a - b) = norm3 (b - a) := by
  unfold norm3
  congr 1
  simp only [Vec3.sub_x, Vec3.sub_y, Vec3.sub_z]
  ring

/-- Moving from `a` by `s` times the xz components of the unit vector toward
`b` makes positive progress toward `b` (positive dot product with `b - a`),
provided `a` and `b` are at the same height. -/
lemma moveDot_toward (a b : Vec3) (s : ℝ) (hy : a.y = b.y)
    (hL : 0 < norm3 (b - a)) (hs : 0 < s) :
    0 < dot3 ((⟨a.x + (normalize3 (b - a)).x * s, a.y,
        a.z + (normalize3 (b - a)).z * s⟩ : Vec3) - a) (b - a) := by
  have hne : norm3 (b - a) ≠ 0 := ne_of_gt hL
  rw [normalize3, if_neg hne]
  set L := norm3 (b - a) with hLdef
  have hsq : (b - a).x ^ 2 + (b - a).y ^ 2 + (b - a).z ^ 2 = L ^ 2 := by
    rw [hLdef]
    exact (Real.sq_sqrt (by positivity)).symm
  simp only [Vec3.sub_x, Vec3.sub_y, Vec3.sub_z, Vec3.smul_x, Vec3.smul_z] at *
  have hvy : b.y - a.y = 0 := by rw [hy]; ring
  have hpos2 : 0 < (b.x - a.x) ^ 2 + (b.z - a.z) ^ 2 := by
    nlinarith [hsq, pow_pos hL 2, hvy]
  unfold dot3
  simp only [Vec3.sub_x, Vec3.sub_y, Vec3.sub_z]
  nlinarith [mul_pos (mul_pos hs (inv_pos.mpr hL)) hpos2]

/-- Moving from `a` by `s` times the xz components of the unit vector away
from `b` makes negative progress toward `b` (negative dot product with
`b - a`), provided `a` and `b` are at the same height. -/
lemma moveDot_away (a b : Vec3) (s : ℝ) (hy : a.y = b.y)
    (hL : 0 < norm3 (a - b)) (hs : 0 < s) :
    dot3 ((⟨a.x + (normalize3 (a - b)).x * s, a.y,
        a.z + (normalize3 (a - b)).z * s⟩ : Vec3) - a) (b - a) < 0 := by
  have hne : norm3 (a - b) ≠ 0 := ne_of_gt hL
  rw [normalize3, if_neg hne]
  set L := norm3 (a - b) with hLdef
  have hsq : (a - b).x ^ 2 + (a - b).y ^ 2 + (a - b).z ^ 2 = L ^ 2 := by
    rw [hLdef]
    exact (Real.sq_sqrt (by positivity)).symm
  simp only [Vec3.sub_x, Vec3.sub_y, Vec3.sub_z, Vec3.smul_x, Vec3.smul_z] at *
  have hvy : a.y - b.y = 0 := by rw [hy]; ring
  have hpos2 : 0 < (a.x - b.x) ^ 2 + (a.z - b.z) ^ 2 := by
    nlinarith [hsq, pow_pos hL 2, hvy]
  unfold dot3
  simp only [Vec3.sub_x, Vec3.sub_y, Vec3.sub_z]
  nlinarith [mul_pos (mul_pos hs (inv_pos.mpr hL)) hpos2]

/-- Claim C2: a live enemy at distance `d` from the player with
`attackRadius < d ≤ detectionRadius` ends the frame in `chase` if it is a
predator (wolf or bear) - moving toward the player and facing it - and in
`flee` if it is a deer - moving directly away and facing away; the resulting
aggro state is never `attack` or `idle`.  (The enemy and the player sit on
the ground plane, as the game keeps both at height 0, and the frame delta is
positive.) -/
theorem enemyFrame_midrange_chase_or_flee :
    ∀ (e : EnemyState) (p : Vec3) (delta now lastAttackTime : ℝ),
    e.isDead = false → 0 ≤ e.attackRadius →
    e.attackRadius < dist3 e.position p →
    dist3 e.position p ≤ e.detectionRadius →
    e.position.y = p.y → 0 < delta →
    ((enemyFrame e p delta now lastAttackTime).enemy.aggroState =
      (if e.etype = EnemyType.deer then AggroState.flee else AggroState.chase)) ∧
    (enemyFrame e p delta now lastAttackTime).enemy.aggroState ≠ AggroState.attack ∧
    (enemyFrame e p delta now lastAttackTime).enemy.aggroState ≠ AggroState.idle ∧
    (e.etype ≠ EnemyType.deer →
      0 < dot3 ((enemyFrame e p delta now lastAttackTime).enemy.position - e.position)
          (p - e.position) ∧
      (enemyFrame e p delta now lastAttackTime).enemy.rotationY =
        mathAtan2 (normalize3 (p - e.position)).x (normalize3 (p - e.position)).z) ∧
    (e.etype = EnemyType.deer →
      dot3 ((enemyFrame e p delta now lastAttackTime).enemy.position - e.position)
          (p - e.position) < 0 ∧
      (enemyFrame e p delta now lastAttackTime).enemy.rotationY =
        mathAtan2 (normalize3 (e.position - p)).x (normalize3 (e.position - p)).z) := by
  intro e p delta now lastAttackTime hdead hA hd1 hd2 hy hdelta
  have hc1 : ¬(dist3 e.position p ≤ e.attackRadius ∧ e.etype ≠ EnemyType.deer) :=
    fun h => absurd h.1 (not_le.mpr hd1)
  have hL : 0 < norm3 (e.position - p) := lt_of_le_of_lt hA hd1
  have hstep : enemyFrame e p delta now lastAttackTime =
      if e.etype = EnemyType.deer then
        ⟨{ e with aggroState := AggroState.flee
                  rotationY := mathAtan2 (normalize3 (e.position - p)).x
                    (normalize3 (e.position - p)).z
                  position := ⟨e.position.x +
                      (normalize3 (e.position - p)).x * (0.08 * delta * 60),
                    e.position.y,
                    e.position.z +
                      (normalize3 (e.position - p)).z * (0.08 * delta * 60)⟩ },
         lastAttackTime, none⟩
      else
        ⟨{ e with aggroState := AggroState.chase
                  rotationY := mathAtan2 (normalize3 (p - e.position)).x
                    (normalize3 (p - e.position)).z
                  position := ⟨e.position.x +
                      (normalize3 (p - e.position)).x * (0.05 * delta * 60),
                    e.position.y,
                    e.position.z +
                      (normalize3 (p - e.position)).z * (0.05 * delta * 60)⟩ },
         lastAttackTime, none⟩ := by
    unfold enemyFrame
    rw [hdead]
    simp only [Bool.false_eq_true, if_false]
    rw [if_neg hc1, if_pos hd2]
  rw [hstep]
  by_cases ht : e.etype = EnemyType.deer
  · rw [if_pos ht]
    refine ⟨by rw [if_pos ht], by simp, by simp, fun hcon => absurd ht hcon,
      fun _ => ⟨?_, rfl⟩⟩
    exact moveDot_away e.position p (0.08 * delta * 60) hy hL
      (by positivity)
  · rw [if_neg ht]
    refine ⟨by rw [if_neg ht], by simp, by simp, fun _ => ⟨?_, rfl⟩,
      fun hcon => absurd hcon ht⟩
    exact moveDot_toward e.position p (0.05 * delta * 60) hy
      ((norm3_sub_symm e.position p) ▸ hL) (by positivity)

/-- Distance used by the C2 witness: a wolf at `(5,0,0)` is 5 units from the
player at the origin. -/
lemma dist3_five : dist3 (⟨5, 0, 0⟩ : Vec3) (⟨0, 0, 0⟩ : Vec3) = 5 := by
  unfold dist3 norm3
  simp only [Vec3.sub_x, Vec3.sub_y, Vec3.sub_z]
  rw [show ((5:ℝ) - 0) ^ 2 + ((0:ℝ) - 0) ^ 2 + ((0:ℝ) - 0) ^ 2 = 5 ^ 2 by norm_num]
  exact Real.sqrt_sq (by norm_num)

/-- Witness for C2: a freshly spawned wolf at `(5,0,0)` (attack radius 2,
detection radius 15) against a player at the origin ends the frame chasing,
not attacking and not idle, moving toward and facing the player. -/
theorem enemyFrame_midrange_chase_or_flee_witness :
    ((enemyFrame (mkEnemy EnemyType.wolf ⟨5, 0, 0⟩) ⟨0, 0, 0⟩
        0.016 0 0).enemy.aggroState =
      (if (mkEnemy EnemyType.wolf ⟨5, 0, 0⟩).etype = EnemyType.deer then
        AggroState.flee else AggroState.chase)) ∧
    (enemyFrame (mkEnemy EnemyType.wolf ⟨5, 0, 0⟩) ⟨0, 0, 0⟩
        0.016 0 0).enemy.aggroState ≠ AggroState.attack ∧
    (enemyFrame (mkEnemy EnemyType.wolf ⟨5, 0, 0⟩) ⟨0, 0, 0⟩
        0.016 0 0).enemy.aggroState ≠ AggroState.idle ∧
    ((mkEnemy EnemyType.wolf ⟨5, 0, 0⟩).etype ≠ EnemyType.deer →
      0 < dot3 ((enemyFrame (mkEnemy EnemyType.wolf ⟨5, 0, 0⟩) ⟨0, 0, 0⟩
            0.016 0 0).enemy.position - (mkEnemy EnemyType.wolf ⟨5, 0, 0⟩).position)
          ((⟨0, 0, 0⟩ : Vec3) - (mkEnemy EnemyType.wolf ⟨5, 0, 0⟩).position) ∧
      (enemyFrame (mkEnemy EnemyType.wolf ⟨5, 0, 0⟩) ⟨0, 0, 0⟩
          0.016 0 0).enemy.rotationY =
        mathAtan2
          (normalize3 ((⟨0, 0, 0⟩ : Vec3) -
            (mkEnemy EnemyType.wolf ⟨5, 0, 0⟩).position)).x
          (normalize3 ((⟨0, 0, 0⟩ : Vec3) -
            (mkEnemy EnemyType.wolf ⟨5, 0, 0⟩).position)).z) ∧
    ((mkEnemy EnemyType.wolf ⟨5, 0, 0⟩).etype = EnemyType.deer →
      dot3 ((enemyFrame (mkEnemy EnemyType.wolf ⟨5, 0, 0⟩) ⟨0, 0, 0⟩
            0.016 0 0).enemy.position - (mkEnemy EnemyType.wolf ⟨5, 0, 0⟩).position)
          ((⟨0, 0, 0⟩ : Vec3) - (mkEnemy EnemyType.wolf ⟨5, 0, 0⟩).position) < 0 ∧
      (enemyFrame (mkEnemy EnemyType.wolf ⟨5, 0, 0⟩) ⟨0, 0, 0⟩
          0.016 0 0).enemy.rotationY =
        mathAtan2
          (normalize3 ((mkEnemy EnemyType.wolf ⟨5, 0, 0⟩).position -
            (⟨0, 0, 0⟩ : Vec3))).x
          (normalize3 ((mkEnemy EnemyType.wolf ⟨5, 0, 0⟩).position -
            (⟨0, 0, 0⟩ : Vec3))).z) :=
  enemyFrame_midrange_chase_or_flee (mkEnemy EnemyType.wolf ⟨5, 0, 0⟩) ⟨0, 0, 0⟩
    0.016 0 0 rfl (by norm_num [mkEnemy, baseStats])
    (by show (2:ℝ) < dist3 (⟨5, 0, 0⟩ : Vec3) (⟨0, 0, 0⟩ : Vec3)
        rw [dist3_five]; norm_num)
    (by show dist3 (⟨5, 0, 0⟩ : Vec3) (⟨0, 0, 0⟩ : Vec3) ≤ (15:ℝ)
        rw [dist3_five]; norm_num)
    rfl (by norm_num)

/-- Cooldown bookkeeping of one enemy AI frame: an attack event is emitted
only when more than `attackCooldown` has elapsed since `lastAttackTime`, and
emitting resets `lastAttackTime` to `now`; a frame with no event leaves
`lastAttackTime` unchanged. -/
lemma enemyFrame_event_some (e : EnemyState) (p : Vec3) (delta now last v : ℝ)
    (h : (enemyFrame e p delta now last).attackEvent = some v) :
    attackCooldown < now - last ∧
    (enemyFrame e p delta now last).lastAttackTime = now := by
  unfold enemyFrame at h ⊢
  split_ifs at h ⊢ <;>
    simp_all [apply_ite EnemyFrameResult.lastAttackTime,
      apply_ite EnemyFrameResult.attackEvent]

/-- A frame that emits no attack event leaves `lastAttackTime` unchanged. -/
lemma enemyFrame_event_none (e : EnemyState) (p : Vec3) (delta now last : ℝ)
    (h : (enemyFrame e p delta now last).attackEvent = none) :
    (enemyFrame e p delta now last).lastAttackTime = last := by
  unfold enemyFrame at h ⊢
  split_ifs at h ⊢ <;>
    simp_all [apply_ite EnemyFrameResult.lastAttackTime,
      apply_ite EnemyFrameResult.attackEvent]

/-- The cooldown invariant for a run of the enemy AI: the emitted attack
timestamps are pairwise more than `attackCooldown` apart, and all lie more
than `attackCooldown` after the initial `lastAttackTime`. -/
lemma enemyRun_cooldown_aux :
    ∀ (fs : List FrameInput) (e : EnemyState) (last : ℝ),
    List.Pairwise (fun t1 t2 => t1 + attackCooldown < t2)
      (enemyRun e last fs).2.2 ∧
    (∀ t ∈ (enemyRun e last fs).2.2, last + attackCooldown < t) := by
  intro fs
  induction fs with
  | nil => intro e last; simp [enemyRun]
  | cons f fs ih =>
    intro e last
    have hrun : (enemyRun e last (f :: fs)).2.2 =
        (match (enemyFrame e f.playerPos f.delta f.now last).attackEvent with
          | some _ => [f.now]
          | none => []) ++
        (enemyRun (enemyFrame e f.playerPos f.delta f.now last).enemy
          (enemyFrame e f.playerPos f.delta f.now last).lastAttackTime fs).2.2 := rfl
    rcases hev : (enemyFrame e f.playerPos f.delta f.now last).attackEvent with _ | v
    · have hlast : (enemyFrame e f.playerPos f.delta f.now last).lastAttackTime = last :=
        enemyFrame_event_none e f.playerPos f.delta f.now last hev
      rw [hrun, hev]
      simp only [List.nil_append]
      rw [hlast]
      exact ih (enemyFrame e f.playerPos f.delta f.now last).enemy last
    · obtain ⟨hgap, hlast⟩ :=
        enemyFrame_event_some e f.playerPos f.delta f.now last v hev
      rw [hrun, hev]
      simp only [List.cons_append, List.nil_append]
      rw [hlast]
      obtain ⟨ihp, ihb⟩ :=
        ih (enemyFrame e f.playerPos f.delta f.now last).enemy f.now
      have hcool : (0 : ℝ) < attackCooldown := by norm_num [attackCooldown]
      refine ⟨List.Pairwise.cons (fun t ht => ihb t ht) ihp, ?_⟩
      intro t ht
      rcases List.mem_cons.mp ht with h | h
      · rw [h]; linarith
      · have := ihb t h
        linarith

/-- Claim C4: for every enemy, any two attack events emitted over any run of
frames are separated by more than `attackCooldown` (1000 ms) of time: an
event fires only when `now - lastAttackTime` exceeds the cooldown and resets
`lastAttackTime` to `now`, so the emitted timestamps are pairwise more than
1000 ms apart (in particular, never two within the same 1000 ms window). -/
theorem enemyRun_attack_cooldown :
    ∀ (e : EnemyState) (lastAttackTime : ℝ) (fs : List FrameInput),
    List.Pairwise (fun t1 t2 => t1 + attackCooldown < t2)
      (enemyRun e lastAttackTime fs).2.2 :=
  fun e lastAttackTime fs => (enemyRun_cooldown_aux fs e lastAttackTime).1

/-- Claim C5 counterexample: a blocked hit of 15 on a player at health 100
does NOT reduce health by half the damage (7.5): `Math.ceil(15 / 2) = 8` is
subtracted, leaving health 92, not 92.5. -/
theorem handleEnemyAttack_half_counterexample :
    (handleEnemyAttack ⟨true, 100, 0⟩ true 15).playerHealth ≠ 100 - 15 / 2 := by
  have hc : (⌈(15:ℝ)/2⌉ : ℤ) = 8 := Int.ceil_eq_iff.mpr (by norm_num)
  norm_num [handleEnemyAttack, actualDamage, hc]

/-- Claim C5 (amended): applying an enemy damage event reduces playerHealth
by the full damage when the block flag is inactive and by `ceil(damage / 2)`
(half rounded up) when it is active, whenever that amount does not exceed the
current health (below that, health floors at 0); in particular a player at
health 100 receiving an unblocked hit of 20 and then a blocked hit of 20
ends at health 70. -/
theorem handleEnemyAttack_damage_amended :
    (∀ (s : GameState) (block : Bool) (damage : ℝ),
      actualDamage block damage ≤ s.playerHealth →
      (handleEnemyAttack s block damage).playerHealth =
        s.playerHealth - actualDamage block damage) ∧
    (handleEnemyAttack (handleEnemyAttack ⟨true, 100, 0⟩ false 20) true 20).playerHealth
      = 70 := by
  constructor
  · intro s block damage h
    simp only [handleEnemyAttack]
    rw [max_eq_right (by linarith)]
    split_ifs with hcond
    · have h0 : s.playerHealth - actualDamage block damage = 0 :=
        le_antisymm hcond.1 (by linarith)
      simpa using h0.symm
    · rfl
  · have hc : (⌈(20:ℝ)/2⌉ : ℤ) = 10 := Int.ceil_eq_iff.mpr (by norm_num)
    norm_num [handleEnemyAttack, actualDamage, hc]

/-- Witness for C5 (amended): an unblocked hit of 30 on a player at health
100 subtracts exactly the full damage. -/
theorem handleEnemyAttack_damage_amended_witness :
    actualDamage false 30 ≤ (⟨true, 100, 0⟩ : GameState).playerHealth ∧
    (handleEnemyAttack ⟨true, 100, 0⟩ false 30).playerHealth =
      (⟨true, 100, 0⟩ : GameState).playerHealth - actualDamage false 30 :=
  ⟨by norm_num [actualDamage],
   handleEnemyAttack_damage_amended.1 ⟨true, 100, 0⟩ false 30
     (by norm_num [actualDamage])⟩

/-- Claim C10: with the block flag active the damage actually subtracted is
`ceil(damage / 2)`: a blocked hit of 15 subtracts 8 (health 100 becomes 92,
not 92.5), and for every positive integer hit the blocked damage is a
positive integer. -/
theorem blocked_damage_ceil_pos :
    actualDamage true 15 = ((8 : ℤ) : ℝ) ∧
    (handleEnemyAttack ⟨true, 100, 0⟩ true 15).playerHealth = 92 ∧
    (∀ n : ℤ, 0 < n →
      actualDamage true ((n : ℤ) : ℝ) = ((⌈((n : ℤ) : ℝ) / 2⌉ : ℤ) : ℝ) ∧
      0 < ⌈((n : ℤ) : ℝ) / 2⌉) := by
  have hc : (⌈(15:ℝ)/2⌉ : ℤ) = 8 := Int.ceil_eq_iff.mpr (by norm_num)
  refine ⟨by norm_num [actualDamage, hc], ?_, ?_⟩
  · norm_num [handleEnemyAttack, actualDamage, hc]
  · intro n hn
    refine ⟨rfl, ?_⟩
    rw [Int.ceil_pos]
    positivity

/-- Witness for C10: the positive-integer part instantiated at a blocked hit
of 7, whose blocked damage is the positive integer `ceil(7/2) = 4`. -/
theorem blocked_damage_ceil_pos_witness :
    actualDamage true (((7 : ℤ) : ℤ) : ℝ) = ((⌈(((7 : ℤ) : ℤ) : ℝ) / 2⌉ : ℤ) : ℝ) ∧
    0 < ⌈(((7 : ℤ) : ℤ) : ℝ) / 2⌉ :=
  blocked_damage_ceil_pos.2.2 7 (by norm_num)

/-- Claim C6 (code bug): at the claim's own input - a wolf (health 50)
receiving in-range, in-arc player hits of 20 and then 30 damage - the program
diverges from the claim.  Every hit goes through the stale first-render
`takeDamage` closure (see `runAttacksStale`), so each one recomputes health
from the initial 50: after the two hits the live health is
`max(0, 50 - 30) = 20`, not 0, the enemy is not dead, and zero `onDeath`
events fire - hence `handleEnemyDeath` is never called and the score never
increments.  (With the player's fixed 20-damage attack no enemy can ever
reach health 0 this way, contradicting the game's documented kill/score
mechanics, which the claim correctly states.) -/
theorem enemy_damage_stale_closure_bug :
    (runAttacksStale (mkEnemy EnemyType.wolf ⟨0, 0, 0⟩)
        (mkEnemy EnemyType.wolf ⟨0, 0, 0⟩) [20, 30]).1.health = 20 ∧
    (runAttacksStale (mkEnemy EnemyType.wolf ⟨0, 0, 0⟩)
        (mkEnemy EnemyType.wolf ⟨0, 0, 0⟩) [20, 30]).1.isDead = false ∧
    (runAttacksStale (mkEnemy EnemyType.wolf ⟨0, 0, 0⟩)
        (mkEnemy EnemyType.wolf ⟨0, 0, 0⟩) [20, 30]).2 = 0 := by
  refine ⟨?_, ?_, ?_⟩
  · norm_num [runAttacksStale, takeDamage, mkEnemy, baseStats]
  · norm_num [runAttacksStale, takeDamage, mkEnemy, baseStats]
  · norm_num [runAttacksStale, takeDamage, mkEnemy, baseStats]

/-- The boundary clamp `max (-50) (min 50 x)` always lands in `[-50, 50]`. -/
lemma clamp50 (x : ℝ) : |max (-50) (min 50 x)| ≤ 50 :=
  abs_le.mpr ⟨le_max_left _ _, max_le (by norm_num) (min_le_left _ _)⟩

/-- Claim C9: in the action game's player frame step, whenever the combined
movement direction built from the forward/left/right inputs is non-zero, the
resulting x and z coordinates are clamped to `[-50, 50]`; a step driven by
backward input alone takes the unclamped branch, adding the backward vector
to the position exactly - so backward-only movement is unbounded, as a
concrete start at `x = 100` shows. -/
theorem playerStep_clamp_and_backward :
    (∀ (pos : Vec3) (rotY moveSpeed : ℝ) (ctrl : GameControls)
        (camForwardRaw camRightRaw : Vec3) (delta : ℝ),
      norm3 (moveDirection ctrl camForwardRaw camRightRaw) ≠ 0 →
      |(playerStep pos rotY moveSpeed ctrl camForwardRaw camRightRaw
          delta).1.x| ≤ 50 ∧
      |(playerStep pos rotY moveSpeed ctrl camForwardRaw camRightRaw
          delta).1.z| ≤ 50) ∧
    (∀ (pos : Vec3) (rotY moveSpeed : ℝ) (attack block : Bool)
        (camForwardRaw camRightRaw : Vec3) (delta : ℝ),
      (playerStep pos rotY moveSpeed ⟨false, true, false, false, attack, block⟩
          camForwardRaw camRightRaw delta).1 =
        ⟨pos.x + -Real.sin rotY * (moveSpeed * delta * 60), pos.y,
         pos.z + -Real.cos rotY * (moveSpeed * delta * 60)⟩) ∧
    50 < (playerStep ⟨100, 0, 0⟩ (-(Real.pi / 2)) 0.15
        ⟨false, true, false, false, false, false⟩ ⟨0, 0, -1⟩ ⟨1, 0, 0⟩
        0.016).1.x := by
  have hmd0 : ∀ (attack block : Bool) (cf cr : Vec3),
      moveDirection ⟨false, true, false, false, attack, block⟩ cf cr = 0 :=
    fun _ _ _ _ => rfl
  have hn0 : norm3 (0 : Vec3) = 0 := by
    unfold norm3
    simp only [Vec3.zero_x, Vec3.zero_y, Vec3.zero_z]
    rw [show (0:ℝ)^2 + (0:ℝ)^2 + (0:ℝ)^2 = 0 by norm_num, Real.sqrt_zero]
  have part2 : ∀ (pos : Vec3) (rotY moveSpeed : ℝ) (attack block : Bool)
      (camForwardRaw camRightRaw : Vec3) (delta : ℝ),
      (playerStep pos rotY moveSpeed ⟨false, true, false, false, attack, block⟩
          camForwardRaw camRightRaw delta).1 =
        ⟨pos.x + -Real.sin rotY * (moveSpeed * delta * 60), pos.y,
         pos.z + -Real.cos rotY * (moveSpeed * delta * 60)⟩ := by
    intro pos rotY moveSpeed attack block cf cr delta
    unfold playerStep
    rw [if_pos ⟨rfl, by rw [hmd0]; exact hn0⟩]
  refine ⟨?_, part2, ?_⟩
  · intro pos rotY moveSpeed ctrl cf cr delta hmd
    have hgt : 0 < norm3 (moveDirection ctrl cf cr) :=
      lt_of_le_of_ne (Real.sqrt_nonneg _) (Ne.symm hmd)
    unfold playerStep
    rw [if_neg (fun h => hmd h.2), if_pos hgt]
    exact ⟨clamp50 _, clamp50 _⟩
  · rw [part2]
    simp only
    rw [Real.sin_neg, Real.sin_pi_div_two]
    norm_num

/-- Length of the unit −z vector, used by the C9 witness. -/
lemma norm3_unit_negz : norm3 (⟨0, 0, -1⟩ : Vec3) = 1 := by
  unfold norm3
  norm_num [Real.sqrt_one]

/-- Normalizing the unit −z vector leaves it unchanged. -/
lemma normalize3_unit_negz : normalize3 (⟨0, 0, -1⟩ : Vec3) = ⟨0, 0, -1⟩ := by
  unfold normalize3
  rw [norm3_unit_negz, if_neg one_ne_zero]
  ext <;> simp

/-- The forward-only movement direction for a camera looking down −z has
length 1 (nonzero), used by the C9 witness. -/
lemma moveDirection_forward_norm :
    norm3 (moveDirection ⟨true, false, false, false, false, false⟩
      ⟨0, 0, -1⟩ ⟨1, 0, 0⟩) = 1 := by
  have hmdF : moveDirection ⟨true, false, false, false, false, false⟩
      ⟨0, 0, -1⟩ ⟨1, 0, 0⟩ = (0 : Vec3) + normalize3 ⟨0, 0, -1⟩ := rfl
  rw [hmdF, normalize3_unit_negz]
  unfold norm3
  simp only [Vec3.add_x, Vec3.add_y, Vec3.add_z, Vec3.zero_x, Vec3.zero_y,
    Vec3.zero_z]
  norm_num [Real.sqrt_one]

/-- Witness for C9: holding forward with the camera looking down −z keeps the
player position clamped to the `[-50, 50]` square. -/
theorem playerStep_clamp_and_backward_witness :
    |(playerStep ⟨0, 0, 0⟩ 0 0.15 ⟨true, false, false, false, false, false⟩
        ⟨0, 0, -1⟩ ⟨1, 0, 0⟩ 0.016).1.x| ≤ 50 ∧
    |(playerStep ⟨0, 0, 0⟩ 0 0.15 ⟨true, false, false, false, false, false⟩
        ⟨0, 0, -1⟩ ⟨1, 0, 0⟩ 0.016).1.z| ≤ 50 :=
  playerStep_clamp_and_backward.1 ⟨0, 0, 0⟩ 0 0.15
    ⟨true, false, false, false, false, false⟩ ⟨0, 0, -1⟩ ⟨1, 0, 0⟩ 0.016
    (by rw [moveDirection_forward_norm]; norm_num)
